import Mathlib

/-!
Verification development for the e-commerce tracker/scraper.

The repository consists of two scheduled handlers (one per marketplace store)
that scan a product table, fetch each product page, extract a normalized
(price, stock) reading via marketplace-specific fallback chains, detect
price-drop / restock changes against the persisted state, publish
notifications, and persist the new state.

We shallowly embed the extractors and the per-item orchestration loop.
Strings are processed as lists of characters; JavaScript regex searches are
embedded as explicit left-to-right scans with greedy/lazy quantifier
behaviour reproduced per pattern.  JavaScript numbers are modelled as ℚ.
External effects (HTTP fetch, DynamoDB get/update, SNS publish) are modelled
by `Except`-valued results supplied in an environment record.
-/

/-- JavaScript whitespace class `\s`, restricted to the ASCII characters that
occur in the inputs handled here. -/
def isJsWs (c : Char) : Bool :=
  c = ' ' || c = '\t' || c = '\n' || c = '\r' || c = Char.ofNat 11 || c = Char.ofNat 12

/-- Match a literal character sequence at the head of the input (case
sensitive); on success return the remaining input. -/
def dropLit : List Char → List Char → Option (List Char)
  | [], cs => some cs
  | _ :: _, [] => none
  | p :: ps, c :: cs => if c = p then dropLit ps cs else none

/-- Match a literal character sequence at the head of the input, comparing
case-insensitively (the JS `/i` flag); on success return the remaining
input. -/
def dropLitCI : List Char → List Char → Option (List Char)
  | [], cs => some cs
  | _ :: _, [] => none
  | p :: ps, c :: cs => if c.toLower = p.toLower then dropLitCI ps cs else none

/-- Left-to-right regex search: try the positional matcher `f` at every start
position (leftmost match wins, as in JS `String.prototype.match` without the
global flag). -/
def scanPositions (f : List Char → Option α) : List Char → Option α
  | [] => f []
  | c :: cs =>
    match f (c :: cs) with
    | some r => some r
    | none => scanPositions f cs

/-- Case-insensitive substring test, embedding `/lit/i.test(s)`. -/
def containsCI (pat : List Char) : List Char → Bool
  | [] => (dropLitCI pat []).isSome
  | c :: cs => (dropLitCI pat (c :: cs)).isSome || containsCI pat cs

/-- Numeric value of a digit string (most significant first). -/
def natOfDigits (cs : List Char) : Nat :=
  cs.foldl (fun n c => 10 * n + (c.toNat - '0'.toNat)) 0

/-- JS `parseInt(s, 10)` restricted to the digit-only strings reachable in
this code base: the leading run of decimal digits, `none` (NaN) when there is
none. -/
def parseIntNat (cs : List Char) : Option Nat :=
  let ds := cs.takeWhile Char.isDigit
  if ds.isEmpty then none else some (natOfDigits ds)

/-- JS `parseFloat` restricted to the character sets reachable in this code
base (digits and dots; no signs or exponents occur): longest prefix of the
form `digits [. digits]`, requiring at least one digit, `none` (NaN)
otherwise. -/
def parseFloatQ (cs : List Char) : Option ℚ :=
  let intPart := cs.takeWhile Char.isDigit
  let rest := cs.dropWhile Char.isDigit
  match rest with
  | '.' :: r2 =>
    let frac := r2.takeWhile Char.isDigit
    if intPart.isEmpty && frac.isEmpty then none
    else some (mkRat (natOfDigits intPart * 10 ^ frac.length + natOfDigits frac) (10 ^ frac.length))
  | _ => if intPart.isEmpty then none else some (natOfDigits intPart : ℚ)

/-- JS `Math.round`: round to the nearest integer, halves toward +∞ — the
floor of `q + 1/2`, written as an integer division so that it evaluates. -/
def jsRound (q : ℚ) : ℤ := (2 * q.num + (q.den : ℤ)) / (2 * (q.den : ℤ))

/-- The normalized reading produced by an extractor:
`{ price: number | null, inStock: boolean | null }`. -/
structure Reading where
  price : Option ℚ
  inStock : Option Bool
deriving Repr, DecidableEq

/-! ## Tokopedia extractor (`extractTokopediaPriceAndStock`, src/src/handler.ts) -/

/-- Positional matcher for the regex `[0-9]+(?:\.[0-9]+)?`: a greedy digit
run, optionally followed by a dot and a further greedy digit run.  Returns
the matched characters. -/
def matchNumAt (cs : List Char) : Option (List Char) :=
  let ds := cs.takeWhile Char.isDigit
  if ds.isEmpty then none
  else
    match cs.dropWhile Char.isDigit with
    | '.' :: r2 =>
      let ds2 := r2.takeWhile Char.isDigit
      if ds2.isEmpty then some ds else some (ds ++ '.' :: ds2)
    | _ => some ds

/-- Capture of `html.match(/price=([0-9]+(?:\.[0-9]+)?)/)`. -/
def tokPriceParamCapture (html : List Char) : Option (List Char) :=
  scanPositions (fun cs => (dropLit "price=".toList cs).bind matchNumAt) html

/-- Capture of `text.match(/Rp\s*([0-9\.]+)/)`. -/
def rpCapture (text : List Char) : Option (List Char) :=
  scanPositions
    (fun cs =>
      match dropLit "Rp".toList cs with
      | none => none
      | some r1 =>
        let r2 := r1.dropWhile isJsWs
        let ds := r2.takeWhile (fun c => c.isDigit || c = '.')
        if ds.isEmpty then none else some ds)
    text

/-- The Rp-prefixed visible-text fallback: strip the grouping dots from the
captured `[0-9\.]+` run and parse as integer (`parseInt(normalized, 10)`),
keeping `null` on NaN. -/
def tokRpPrice (text : List Char) : Option ℚ :=
  match rpCapture text with
  | none => none
  | some cap =>
    match parseIntNat (cap.filter (fun c => c ≠ '.')) with
    | none => none
    | some n => some (n : ℚ)

/-- Capture of `text.match(/Stok:\s*([0-9]+)/i)`, already parsed: the
quantity `N`. -/
def stokQty (text : List Char) : Option Nat :=
  scanPositions
    (fun cs =>
      match dropLitCI "Stok:".toList cs with
      | none => none
      | some r1 =>
        let r2 := r1.dropWhile isJsWs
        let ds := r2.takeWhile Char.isDigit
        if ds.isEmpty then none else some (natOfDigits ds))
    text

/-- Embedding of `/Stok habis|stok habis|sold out|habis/i.test(text)`. -/
def tokOutOfStockText (text : List Char) : Bool :=
  containsCI "Stok habis".toList text || containsCI "stok habis".toList text ||
    containsCI "sold out".toList text || containsCI "habis".toList text

/-- Embedding of `extractTokopediaPriceAndStock` from src/src/handler.ts.  The source
computes `text` as the cheerio-extracted visible text of `html`
(`cheerio.load(html)` then `$.text()`); cheerio is an external library, so
the visible text is passed here as a second argument.  The `price=` URL
parameter is searched in the raw `html`, the Rp fallback and the stock
keywords in `text`.  (In the first branch the capture always contains a
digit, so `parseFloat` never yields NaN there.) -/
def extractTokopediaPriceAndStock (html text : String) : Reading :=
  let price : Option ℚ :=
    match tokPriceParamCapture html.toList with
    | some cap =>
      match parseFloatQ cap with
      | some q => some ((jsRound q : ℤ) : ℚ)
      | none => none
    | none => tokRpPrice text.toList
  let inStock : Option Bool :=
    match stokQty text.toList with
    | some qty => some (decide (0 < qty))
    | none => if tokOutOfStockText text.toList then some false else none
  ⟨price, inStock⟩

/-! ## Amazon extractor (`extractAmazonPriceAndStock`, src/unnamed/part_000) -/

/-- The currency cleanup used on Amazon display prices:
`replace(/[^0-9.,]/g, '')` (the `cleaned` step) followed by
`replace(/,/g, '')` (the `normalized` step). -/
def amzCleanNum (cs : List Char) : List Char :=
  (cs.filter (fun c => c.isDigit || c = '.' || c = ',')).filter (fun c => c ≠ ',')

/-- Capture of `html.match(/"priceAmount"\s*:\s*([0-9.]+)/)`. -/
def amzPriceAmountCapture (html : List Char) : Option (List Char) :=
  scanPositions
    (fun cs =>
      match dropLit "\"priceAmount\"".toList cs with
      | none => none
      | some r1 =>
        match dropLit [':'] (r1.dropWhile isJsWs) with
        | none => none
        | some r2 =>
          let r3 := r2.dropWhile isJsWs
          let ds := r3.takeWhile (fun c => c.isDigit || c = '.')
          if ds.isEmpty then none else some ds)
    html

/-- Positional matcher for `([^"]+)"`: a nonempty greedy run of non-quote
characters followed by a closing quote. -/
def captureToQuote (cs : List Char) : Option (List Char) :=
  let cap := cs.takeWhile (fun c => c ≠ '"')
  if cap.isEmpty then none
  else if (cs.dropWhile (fun c => c ≠ '"')).isEmpty then none
  else some cap

/-- Capture of
`html.match(/"desktop_buybox_group_1"\s*:\s*\[\{"displayPrice":"([^"]+)"/)`. -/
def amzBuyboxCapture (html : List Char) : Option (List Char) :=
  scanPositions
    (fun cs =>
      match dropLit "\"desktop_buybox_group_1\"".toList cs with
      | none => none
      | some r1 =>
        match dropLit [':'] (r1.dropWhile isJsWs) with
        | none => none
        | some r2 =>
          match dropLit "[\x7b\"displayPrice\":\"".toList (r2.dropWhile isJsWs) with
          | none => none
          | some r3 => captureToQuote r3)
    html

/-- Tail of the summary pattern, `\s*([^<\n]+)`: a greedy whitespace run that
backtracks (giving characters back from its end) until the capture `[^<\n]+`
can match; the capture itself is greedy.  `j` is the number of whitespace
characters currently consumed by `\s*`. -/
def summaryTailAt (cs : List Char) : Nat → Option (List Char)
  | 0 =>
    match cs with
    | [] => none
    | c :: rest =>
      if c ≠ '<' && c ≠ '\n' then some (c :: rest.takeWhile (fun d => d ≠ '<' && d ≠ '\n'))
      else none
  | j + 1 =>
    match cs.drop (j + 1) with
    | [] => summaryTailAt cs j
    | c :: rest =>
      if c ≠ '<' && c ≠ '\n' then some (c :: rest.takeWhile (fun d => d ≠ '<' && d ≠ '\n'))
      else summaryTailAt cs j

/-- Capture of `\s*([^<\n]+)` with JS backtracking semantics. -/
def summaryTail (cs : List Char) : Option (List Char) :=
  summaryTailAt cs (cs.takeWhile isJsWs).length

/-- The lazy bounded window `[\s\S]{0,200}?One-time purchase:\s*([^<\n]+)`:
try the shortest window first, growing one character at a time up to the
bound (`fuel` counts the window characters still available). -/
def summaryWindow : List Char → Nat → Option (List Char)
  | cs, fuel =>
    match dropLit "One-time purchase:".toList cs with
    | some r => summaryTail r
    | none =>
      match fuel, cs with
      | f + 1, _ :: t => summaryWindow t f
      | _, _ => none

/-- Capture of
`html.match(/Product Summary:[\s\S]{0,200}?One-time purchase:\s*([^<\n]+)/)`. -/
def amzSummaryCapture (html : List Char) : Option (List Char) :=
  scanPositions
    (fun cs =>
      match dropLit "Product Summary:".toList cs with
      | none => none
      | some r => summaryWindow r 200)
    html

/-- First price strategy: the numeric `priceAmount` field
(`parseFloat(amountMatch[1])`, with the NaN check keeping `price` null). -/
def amzStrategy1 (h : List Char) : Option ℚ :=
  match amzPriceAmountCapture h with
  | some cap => parseFloatQ cap
  | none => none

/-- Second price strategy: the buy-box `displayPrice`, cleaned and
normalized before parsing. -/
def amzStrategy2 (h : List Char) : Option ℚ :=
  match amzBuyboxCapture h with
  | some cap => parseFloatQ (amzCleanNum cap)
  | none => none

/-- Third price strategy: the "Product Summary ... One-time purchase:" text,
cleaned and normalized before parsing. -/
def amzStrategy3 (h : List Char) : Option ℚ :=
  match amzSummaryCapture h with
  | some cap => parseFloatQ (amzCleanNum cap)
  | none => none

/-- Embedding of `extractAmazonPriceAndStock` from src/unnamed/part_000:
price resolved by the ordered fallback chain `priceAmount` field → buy-box
`displayPrice` → "Product Summary ... One-time purchase:" text, each block
running only while the previous strategies left `price` null
(`if (price == null)`); stock from case-insensitive keyword tests,
independent of the price outcome.  (The `try` around the first strategy
guards `parseFloat`, which cannot throw; NaN results are modelled as
`none`.) -/
def extractAmazonPriceAndStock (html : String) : Reading :=
  let h := html.toList
  let p1 : Option ℚ := amzStrategy1 h
  let p2 : Option ℚ :=
    match p1 with
    | some q => some q
    | none => amzStrategy2 h
  let p3 : Option ℚ :=
    match p2 with
    | some q => some q
    | none => amzStrategy3 h
  let inStock : Option Bool :=
    if containsCI "In Stock".toList h then some true
    else if containsCI "Currently unavailable".toList h then some false
    else none
  ⟨p3, inStock⟩

/-! ## Lazada extractor (`extractLazadaPriceAndStock`, src/unnamed/part_000) -/

/-- Result of `JSON.parse` on the tracking snippet, restricted to what the
extractor observes: `none` models a falsy parse result, and `pdt_price` is
`some s` exactly when the parsed object carries a string-typed `pdt_price`
field. -/
structure TrackingData where
  pdt_price : Option String
deriving Repr, DecidableEq

/-- Capture of `html.match(/var\s+pdpTrackingData\s*=\s*Q([^Q]*)Q/)` where
`Q` is the given quote character (the source tries `"` first, then `'`).
Note the body `[^Q]*` may be empty, unlike `captureToQuote`. -/
def lazTrackingCaptureQ (q : Char) (html : List Char) : Option (List Char) :=
  scanPositions
    (fun cs =>
      match dropLit "var".toList cs with
      | none => none
      | some r1 =>
        let ws := r1.takeWhile isJsWs
        if ws.isEmpty then none
        else
          match dropLit "pdpTrackingData".toList (r1.drop ws.length) with
          | none => none
          | some r2 =>
            match dropLit ['='] (r2.dropWhile isJsWs) with
            | none => none
            | some r3 =>
              match dropLit [q] (r3.dropWhile isJsWs) with
              | none => none
              | some r4 =>
                let cap := r4.takeWhile (fun c => c ≠ q)
                if (r4.dropWhile (fun c => c ≠ q)).isEmpty then none else some cap)
    html

/-- The tracking snippet: double-quoted pattern first, then single-quoted
(`match(...) || match(...)` in the source). -/
def lazTrackingCapture (html : List Char) : Option (List Char) :=
  match lazTrackingCaptureQ '"' html with
  | some cap => some cap
  | none => lazTrackingCaptureQ (Char.ofNat 39) html

/-- The throwing part of the Lazada extractor (the body of its `try`): find
the tracking snippet, run it through `JSON.parse` (the argument `jp`, which
may throw), read a string `pdt_price` field, strip non-digits and parse as
integer.  A thrown error propagates out of this computation. -/
def lazadaTryBody (jp : String → Except String (Option TrackingData))
    (html : List Char) : Except String (Option ℚ) :=
  match lazTrackingCapture html with
  | none => Except.ok none
  | some cap =>
    match jp (String.mk cap) with
    | Except.error e => Except.error e
    | Except.ok none => Except.ok none
    | Except.ok (some td) =>
      match td.pdt_price with
      | none => Except.ok none
      | some s =>
        match parseIntNat (s.toList.filter Char.isDigit) with
        | none => Except.ok none
        | some n => Except.ok (some (n : ℚ))

/-- Raw-key fallback, first form: capture of
`html.match(/pdt_price\":\"([^\"]+)\"/)` (the regex-level `\"` is a plain
quote, so there is no leading quote before `pdt_price`). -/
def lazKeyCapture1 (html : List Char) : Option (List Char) :=
  scanPositions
    (fun cs =>
      match dropLit "pdt_price\":\"".toList cs with
      | none => none
      | some r => captureToQuote r)
    html

/-- Raw-key fallback, second form: capture of
`html.match(/"pdt_price":"([^"]+)"/)`. -/
def lazKeyCapture2 (html : List Char) : Option (List Char) :=
  scanPositions
    (fun cs =>
      match dropLit "\"pdt_price\":\"".toList cs with
      | none => none
      | some r => captureToQuote r)
    html

/-- The raw-key fallback price: `(escapedMatch && escapedMatch[1]) ||
(plainMatch && plainMatch[1])`, digit-stripped and integer-parsed. -/
def lazKeyPrice (html : List Char) : Option ℚ :=
  let rawPrice :=
    match lazKeyCapture1 html with
    | some cap => some cap
    | none => lazKeyCapture2 html
  match rawPrice with
  | none => none
  | some cap =>
    match parseIntNat (cap.filter Char.isDigit) with
    | none => none
    | some n => some (n : ℚ)

/-- The Lazada stock detection: out-of-stock keyword first, then the
schema.org in-stock marker. -/
def lazStock (html : List Char) : Option Bool :=
  if containsCI "Stok habis".toList html then some false
  else if containsCI "schema.org/InStock".toList html then some true
  else none

/-- Embedding of `extractLazadaPriceAndStock` from src/unnamed/part_000.  `JSON.parse` is
an external library call and is passed in as `jp`.  The `try { ... } catch
{}` around the tracking-variable strategy is modelled by matching on
`lazadaTryBody`: a thrown error leaves `price` null, so the raw-key fallback
is consulted. -/
def extractLazadaPriceAndStock (jp : String → Except String (Option TrackingData))
    (html : String) : Reading :=
  let h := html.toList
  let price0 : Option ℚ :=
    match lazadaTryBody jp h with
    | Except.ok p => p
    | Except.error _ => none
  let price : Option ℚ :=
    match price0 with
    | some q => some q
    | none => lazKeyPrice h
  ⟨price, lazStock h⟩

/-! ## Change detector and per-item orchestration (`handler`, both handlers)

The two handlers are line-for-line identical apart from the marketplace
name, the last-price attribute name (`harga_terakhir` / `last_price`) and
the extractor used, so they are embedded once, parameterised by the
extractor.  External effects are supplied through an environment record:
each `Except`-valued field is the outcome the corresponding awaited call
would have (a thrown error or a value). -/

/-- The change decision computed inline by the handler (`nowInStock`,
`priceDropped`, `restocked` at src/src/handler.ts lines 87-89). -/
structure ChangeDecision where
  nowInStock : Bool
  priceDropped : Bool
  restocked : Bool
deriving Repr, DecidableEq

/-- Lines 87-89 of the handler:
`nowInStock = inStock ?? prevInStock`,
`priceDropped = lastPrice != null && price < lastPrice`,
`restocked = prevInStock === false && nowInStock === true`.
Called only with a non-null `price`. -/
def decideChange (lastPrice : Option ℚ) (prevInStock : Bool) (price : ℚ)
    (inStock : Option Bool) : ChangeDecision :=
  let nowInStock := inStock.getD prevInStock
  { nowInStock := nowInStock
    priceDropped :=
      match lastPrice with
      | some lp => decide (price < lp)
      | none => false
    restocked := !prevInStock && nowInStock }

/-- The notification-topic configuration: whether each SNS topic ARN is a
nonempty string. -/
structure HandlerConfig where
  hasPriceTopic : Bool
  hasStockTopic : Bool
deriving Repr, DecidableEq

/-- One scanned product record, as the handler reads it: `product_url` and
`user_id` may be absent, the last-price attribute is kept only when
number-typed, `in_stock` only when boolean-typed. -/
structure RawItem where
  product_url : Option String
  user_id : Option String
  last_price : Option ℚ
  in_stock : Option Bool

/-- Outcomes of the external calls made while processing one item. -/
structure ItemEnv where
  /-- Outcome of `axios.get(productUrl, ...)`: the page body, or a thrown fetch error
  (network failure / timeout / non-success status). -/
  fetchResult : Except Unit String
  /-- Outcome of `ddb.send(new GetCommand(...))` for the owning user: the `email`
  attribute if the user item has one, or a thrown error. -/
  userLookup : Except Unit (Option String)
  /-- Outcome of `sns.send` on the price-drop topic. -/
  priceDropPublish : Except Unit Unit
  /-- Outcome of `sns.send` on the restock topic. -/
  restockPublish : Except Unit Unit
  /-- Outcome of `ddb.send(new UpdateCommand(...))`. -/
  persistResult : Except Unit Unit
  /-- Value of `new Date().toISOString()`. -/
  now : String

/-- The `UpdateCommand` issued for an item:
`SET last_price = :price, in_stock = :inStock, updated_at = :now`. -/
structure StoreWrite where
  url : String
  price : ℚ
  inStock : Bool
  updatedAt : String
deriving Repr, DecidableEq

/-- The persisted attributes of one product record. -/
structure StoredFields where
  last_price : ℚ
  in_stock : Bool
  updated_at : String

/-- The products table, keyed by `product_url`. -/
def Store : Type := String → Option StoredFields

/-- Apply the update (if any) issued for an item to the store. -/
def applyWrite (st : Store) : Option StoreWrite → Store
  | none => st
  | some w => fun u => if u = w.url then some ⟨w.price, w.inStock, w.updatedAt⟩ else st u

/-- The body of the per-item `try` block: fetch, extract, skip on null
price, decide, notify (user lookup, then each configured applicable topic),
persist.  Any thrown error propagates to the item-scoped catch.  The result
is the `UpdateCommand` issued (`none` when the item was skipped by the
null-price `continue`). -/
def itemTryBody (cfg : HandlerConfig) (env : ItemEnv) (extract : String → Reading)
    (lastPrice : Option ℚ) (prevInStock : Bool) (url : String) :
    Except Unit (Option StoreWrite) :=
  match env.fetchResult with
  | Except.error e => Except.error e
  | Except.ok page =>
    let r := extract page
    match r.price with
    | none => Except.ok none
    | some price =>
      let d := decideChange lastPrice prevInStock price r.inStock
      let notifyStep : Except Unit Unit :=
        if d.priceDropped || d.restocked then
          match env.userLookup with
          | Except.error e => Except.error e
          | Except.ok _ =>
            match (if d.priceDropped && cfg.hasPriceTopic then env.priceDropPublish else Except.ok ()) with
            | Except.error e => Except.error e
            | Except.ok _ =>
              if d.restocked && cfg.hasStockTopic then env.restockPublish else Except.ok ()
        else Except.ok ()
      match notifyStep with
      | Except.error e => Except.error e
      | Except.ok _ =>
        match env.persistResult with
        | Except.error e => Except.error e
        | Except.ok _ => Except.ok (some ⟨url, price, d.nowInStock, env.now⟩)

/-- Processing of one scanned record: read the fields, skip (with a warning)
when `product_url` or `user_id` is falsy (absent or empty), otherwise run
the `try` block; a caught error produces no store update. -/
def processItem (cfg : HandlerConfig) (extract : String → Reading)
    (env : ItemEnv) (item : RawItem) : Option StoreWrite :=
  match item.product_url, item.user_id with
  | some url, some uid =>
    if url.isEmpty || uid.isEmpty then none
    else
      match itemTryBody cfg env extract item.last_price (item.in_stock.getD false) url with
      | Except.ok w => w
      | Except.error _ => none
  | _, _ => none

/-- The `for (const item of items)` loop over one scanned page:
`processed++` runs for every item, before the required-field validation.
Returns the updates issued (one entry per item) and the `processed`
increment contributed by the page. -/
def runItems (cfg : HandlerConfig) (extract : String → Reading) :
    List (RawItem × ItemEnv) → List (Option StoreWrite) × Nat
  | [] => ([], 0)
  | (item, env) :: rest =>
    let w := processItem cfg extract env item
    let (ws, n) := runItems cfg extract rest
    (w :: ws, n + 1)

/-- The `do ... while (ExclusiveStartKey)` pagination loop: the store's scan
yields a sequence of pages; the handler processes them in order and reports
the final `processed` count. -/
def runScan (cfg : HandlerConfig) (extract : String → Reading) :
    List (List (RawItem × ItemEnv)) → List (Option StoreWrite) × Nat
  | [] => ([], 0)
  | page :: pages =>
    let (ws, n) := runItems cfg extract page
    let (ws2, n2) := runScan cfg extract pages
    (ws ++ ws2, n + n2)

/-! ## Spec-side definitions and concrete fixtures -/

/-- Modelled from the spec (claim C3's reading of the numeric semantics):
cleanup removes everything except digits, decimal points and commas, then
removes grouping commas, then parses.  Used to compare the spec's described
cleanup with what each marketplace's code actually does. -/
def claimCleanupParse (cs : List Char) : Option ℚ :=
  parseFloatQ ((cs.filter (fun c => c.isDigit || c = '.' || c = ',')).filter (fun c => c ≠ ','))

/-- JS truthiness of an optional string field: present and nonempty. -/
def truthyStr : Option String → Bool
  | none => false
  | some s => !s.isEmpty

/-- Modelled from the spec (claim C9's reading of the processed count): the
number of scanned records that would be counted if records skipped for
missing required fields (`url` / `ownerId`) were not counted as processed. -/
def claimProcessedCount (pages : List (List (RawItem × ItemEnv))) : Nat :=
  (pages.map
    (fun page =>
      (page.filter (fun p => truthyStr p.1.product_url && truthyStr p.1.user_id)).length)).sum

/-- Fixture: an extractor whose reading always has a null price. -/
def extractNull : String → Reading := fun _ => ⟨none, none⟩

/-- Fixture: an extractor that always reads price 5, in stock. -/
def extractDrop : String → Reading := fun _ => ⟨some 5, some true⟩

/-- Fixture: an environment where every external call succeeds. -/
def envAllOk : ItemEnv :=
  ⟨Except.ok "page", Except.ok none, Except.ok (), Except.ok (), Except.ok (), "t"⟩

/-- Fixture: an environment where both SNS publishes throw. -/
def envNotifyFail : ItemEnv :=
  ⟨Except.ok "page", Except.ok none, Except.error (), Except.error (), Except.ok (), "t"⟩

/-- Fixture: a record with all fields present (last price 10, out of stock). -/
def itemGood : RawItem := ⟨some "u", some "x", some 10, some false⟩

/-- Fixture: a record missing its `product_url`. -/
def itemNoUrl : RawItem := ⟨none, some "x", none, none⟩

/-- Fixture: a `JSON.parse` stand-in that always throws. -/
def jpFailing : String → Except String (Option TrackingData) :=
  fun _ => Except.error "SyntaxError"

/-! ## Helper lemmas -/

lemma jsRound_eq_floor (q : ℚ) : jsRound q = Int.floor (q + 1 / 2) := by
  have hden : ((q.den : ℚ)) ≠ 0 := by
    exact_mod_cast q.den_ne_zero
  have hnum : (q.num : ℚ) = q * q.den := (div_eq_iff hden).mp (Rat.num_div_den q)
  have hq : (q + 1 / 2 : ℚ) = ((2 * q.num + (q.den : ℤ) : ℤ) : ℚ) / ((2 * q.den : ℕ) : ℚ) := by
    rw [eq_div_iff (by positivity)]
    push_cast
    rw [hnum]; ring
  rw [jsRound, hq, Rat.floor_intCast_div_natCast]
  norm_num

lemma jsRound_nearest (q : ℚ) : |((jsRound q : ℤ) : ℚ) - q| ≤ 1 / 2 := by
  rw [jsRound_eq_floor, abs_le]
  have h1 := Int.floor_le (q + 1 / 2)
  have h2 := Int.lt_floor_add_one (q + 1 / 2)
  constructor
  · push_cast at h2 ⊢; linarith
  · push_cast at h1 ⊢; linarith

lemma runItems_count (cfg : HandlerConfig) (extract : String → Reading) :
    ∀ l : List (RawItem × ItemEnv), (runItems cfg extract l).2 = l.length := by
  intro l
  induction l with
  | nil => rfl
  | cons x xs ih =>
    rcases x with ⟨item, env⟩
    simp only [runItems, List.length_cons]
    rw [← ih]

/-! ## Claims -/

/-- C1: For every previous state (optional `lastPrice`, boolean `lastInStock`)
and every reading with non-null price, the change decision satisfies:
`nowInStock` equals the reading's stock when it is not unknown and the
previously persisted `lastInStock` otherwise; `priceDropped` holds iff
`lastPrice` is defined and the reading's price is strictly less than
`lastPrice`; `restocked` holds iff the previous `lastInStock` is false and
`nowInStock` is true. -/
theorem c1_change_decision (lastPrice : Option ℚ) (prevInStock : Bool)
    (price : ℚ) (stock : Option Bool) :
    (∀ b, stock = some b →
      (decideChange lastPrice prevInStock price stock).nowInStock = b)
    ∧ (stock = none →
      (decideChange lastPrice prevInStock price stock).nowInStock = prevInStock)
    ∧ ((decideChange lastPrice prevInStock price stock).priceDropped = true
        ↔ ∃ lp, lastPrice = some lp ∧ price < lp)
    ∧ ((decideChange lastPrice prevInStock price stock).restocked = true
        ↔ prevInStock = false
          ∧ (decideChange lastPrice prevInStock price stock).nowInStock = true) := by
  refine ⟨?_, ?_, ?_, ?_⟩
  · intro b hb; subst hb; simp [decideChange]
  · intro h; subst h; simp [decideChange]
  · rcases lastPrice with _ | lp <;> simp [decideChange]
  · rcases stock with _ | b <;> cases prevInStock <;> simp [decideChange]

/-- Witness for C1 at a concrete input: an unknown stock reading carries the
previous `lastInStock` forward. -/
theorem c1_change_decision_witness :
    (decideChange (some 10) false (5 : ℚ) none).nowInStock = false :=
  (c1_change_decision (some 10) false 5 none).2.1 rfl

/-- C2: For every scanned product record, whenever extraction yields a null
price the orchestrator skips that item for the cycle and issues no store
update for it, so its persisted `lastPrice`, `lastInStock` and `updatedAt`
are left unchanged. -/
theorem c2_null_price_skips (cfg : HandlerConfig) (extract : String → Reading)
    (env : ItemEnv) (item : RawItem) (page : String)
    (hfetch : env.fetchResult = Except.ok page)
    (hnull : (extract page).price = none) :
    processItem cfg extract env item = none
    ∧ ∀ st : Store, applyWrite st (processItem cfg extract env item) = st := by
  have hmain : processItem cfg extract env item = none := by
    rcases item with ⟨pu, ui, lp, ins⟩
    rcases pu with _ | url <;> rcases ui with _ | uid <;>
      simp [processItem, itemTryBody, hfetch, hnull]
  exact ⟨hmain, fun st => by rw [hmain]; rfl⟩

/-- Witness for C2: with an all-succeeding environment and an extractor that
reads a null price, a fully populated record is skipped with no update. -/
theorem c2_null_price_skips_witness :
    processItem ⟨true, true⟩ extractNull envAllOk itemGood = none :=
  (c2_null_price_skips ⟨true, true⟩ extractNull envAllOk itemGood "page" rfl rfl).1

/-- C3 counterexample: at the marketplace-B input "Rp30.999.000" the claim
contradicts itself.  The captured currency text is "30.999.000"; the
cleanup the claim describes (keep digits, decimal points and commas, then
remove grouping commas, then parse) yields 30.999, while the code's
extraction (strip the grouping dots, parse as integer) yields 30999000 —
the value the claim itself requires for this example. -/
theorem c3_cleanup_counterexample :
    (extractTokopediaPriceAndStock "<span>Rp30.999.000</span>" "Rp30.999.000").price
        = some 30999000
    ∧ rpCapture "Rp30.999.000".toList = some "30.999.000".toList
    ∧ claimCleanupParse "30.999.000".toList = some (mkRat 30999 1000)
    ∧ mkRat 30999 1000 ≠ (30999000 : ℚ) :=
  ⟨by decide, by decide, by decide, by decide⟩

/-- C3 (amended): marketplace-A currency cleanup removes everything except
digits, decimal points and commas, then removes grouping commas before
parsing; marketplace B's Rp path captures digits and dots and strips the
grouping dots before integer parsing.  The example extractions hold as
stated, and a non-numeric cleanup result yields a null price. -/
theorem c3_cleanup_amended :
    (extractTokopediaPriceAndStock "<span>Rp30.999.000</span>" "Rp30.999.000").price
        = some 30999000
    ∧ (extractAmazonPriceAndStock
        "\x7b\"desktop_buybox_group_1\":[\x7b\"displayPrice\":\"IDR 501,282.85\"\x7d]\x7d").price
        = some (mkRat 50128285 100)
    ∧ (extractAmazonPriceAndStock "\"priceAmount\": 29.99").price = some (mkRat 2999 100)
    ∧ (extractAmazonPriceAndStock
        "\x7b\"desktop_buybox_group_1\":[\x7b\"displayPrice\":\"N/A\"\x7d]\x7d").price = none :=
  ⟨by decide, by decide, by decide, by decide⟩

/-- C4: For every marketplace-A page, price extraction tries the ordered
fallback chain `priceAmount` field → buy-box `displayPrice` → "Product
Summary ... One-time purchase:" bounded-window text, and the first strategy
yielding a parseable non-null value wins; when both a `priceAmount` field
and a buy-box display price are present, the `priceAmount` value is
reported. -/
theorem c4_amazon_fallback_chain (html : String) :
    (∀ q, amzStrategy1 html.toList = some q →
      (extractAmazonPriceAndStock html).price = some q)
    ∧ (amzStrategy1 html.toList = none →
        ∀ q, amzStrategy2 html.toList = some q →
          (extractAmazonPriceAndStock html).price = some q)
    ∧ (amzStrategy1 html.toList = none → amzStrategy2 html.toList = none →
        (extractAmazonPriceAndStock html).price = amzStrategy3 html.toList)
    ∧ (extractAmazonPriceAndStock
        "\x7b\"priceAmount\":100,\"desktop_buybox_group_1\":[\x7b\"displayPrice\":\"IDR 200\"\x7d]\x7d").price
        = some 100 := by
  refine ⟨?_, ?_, ?_, by decide⟩
  · intro q h1; simp only [String.toList] at h1
    simp [extractAmazonPriceAndStock, h1]
  · intro h1 q h2; simp only [String.toList] at h1 h2
    simp [extractAmazonPriceAndStock, h1, h2]
  · intro h1 h2; simp only [String.toList] at h1 h2
    simp [extractAmazonPriceAndStock, h1, h2]

/-- Witness for C4: the first strategy's value is reported when it parses,
and the buy-box value when the first strategy misses. -/
theorem c4_amazon_fallback_chain_witness :
    (extractAmazonPriceAndStock "\"priceAmount\":100").price = some 100
    ∧ (extractAmazonPriceAndStock
        "\"desktop_buybox_group_1\":[\x7b\"displayPrice\":\"IDR 200\"\x7d]").price = some 200 :=
  ⟨(c4_amazon_fallback_chain "\"priceAmount\":100").1 100 (by decide),
   (c4_amazon_fallback_chain
      "\"desktop_buybox_group_1\":[\x7b\"displayPrice\":\"IDR 200\"\x7d]").2.1
     (by decide) 200 (by decide)⟩

/-- C5: For every marketplace-B page, when a `price=<number>` parameter
occurs anywhere in the raw content the extracted price is that number
rounded to the nearest whole unit (half up), and the Rp-prefixed
visible-text fallback is consulted only when no such parameter is
present. -/
theorem c5_tokopedia_price_chain (html text : String) :
    (∀ cap q, tokPriceParamCapture html.toList = some cap →
      parseFloatQ cap = some q →
      (extractTokopediaPriceAndStock html text).price = some ((jsRound q : ℤ) : ℚ))
    ∧ (tokPriceParamCapture html.toList = none →
        (extractTokopediaPriceAndStock html text).price = tokRpPrice text.toList)
    ∧ (∀ q : ℚ, |((jsRound q : ℤ) : ℚ) - q| ≤ 1 / 2)
    ∧ (extractTokopediaPriceAndStock "price=24479000.000000" "").price = some 24479000 := by
  refine ⟨?_, ?_, jsRound_nearest, by decide⟩
  · intro cap q h1 h2; simp only [String.toList] at h1
    simp [extractTokopediaPriceAndStock, h1, h2]
  · intro h1; simp only [String.toList] at h1
    simp [extractTokopediaPriceAndStock, h1]

/-- Witness for C5: a fractional `price=` parameter is rounded (2.5 → 3),
and without the parameter the Rp fallback is used (Rp5.000 → 5000). -/
theorem c5_tokopedia_price_chain_witness :
    (extractTokopediaPriceAndStock "price=2.5" "x").price
        = some ((jsRound (mkRat 5 2) : ℤ) : ℚ)
    ∧ (extractTokopediaPriceAndStock "<a>" "Rp5.000").price = tokRpPrice "Rp5.000".toList :=
  ⟨(c5_tokopedia_price_chain "price=2.5" "x").1 "2.5".toList (mkRat 5 2)
      (by decide) (by decide),
   (c5_tokopedia_price_chain "<a>" "Rp5.000").2.1 (by decide)⟩

/-- C6: Stock keyword detection is case-insensitive and independent of the
price extraction outcome.  Marketplace B: stock is true iff a "Stok: N"
pattern has N > 0, otherwise false when an out-of-stock keyword appears,
otherwise unknown.  Marketplace A: true on "In Stock", false on "Currently
unavailable", otherwise unknown. -/
theorem c6_stock_detection :
    (∀ html html2 text : String,
      (extractTokopediaPriceAndStock html text).inStock
        = (extractTokopediaPriceAndStock html2 text).inStock)
    ∧ (∀ html text : String,
        (extractTokopediaPriceAndStock html text).inStock = some true
          ↔ ∃ n, stokQty text.toList = some n ∧ 0 < n)
    ∧ (extractTokopediaPriceAndStock "" "Stok: 30").inStock = some true
    ∧ (extractTokopediaPriceAndStock "" "sTok: 0").inStock = some false
    ∧ (extractTokopediaPriceAndStock "" "STOK HABIS").inStock = some false
    ∧ (extractTokopediaPriceAndStock "" "Sold Out").inStock = some false
    ∧ (extractTokopediaPriceAndStock "" "tersedia").inStock = none
    ∧ (extractAmazonPriceAndStock "In Stock").inStock = some true
    ∧ (extractAmazonPriceAndStock "IN STOCK").inStock = some true
    ∧ (extractAmazonPriceAndStock "Currently unavailable").inStock = some false
    ∧ (extractAmazonPriceAndStock "currently UNAVAILABLE").inStock = some false
    ∧ (extractAmazonPriceAndStock "nothing here").inStock = none
    ∧ (extractAmazonPriceAndStock "In Stock").price = none
    ∧ (extractAmazonPriceAndStock "\"priceAmount\":7 In Stock").inStock = some true := by
  refine ⟨fun html html2 text => rfl, ?_, by decide, by decide, by decide, by decide,
    by decide, by decide, by decide, by decide, by decide, by decide, by decide, by decide⟩
  intro html text
  simp only [extractTokopediaPriceAndStock, String.toList]
  cases h : stokQty text.data with
  | some n => simp
  | none =>
    by_cases h2 : tokOutOfStockText text.data <;> simp [h2]

/-- Witness for C6: the quantity characterization applied at "Stok: 2". -/
theorem c6_stock_detection_witness :
    (extractTokopediaPriceAndStock "" "Stok: 2").inStock = some true :=
  (c6_stock_detection.2.1 "" "Stok: 2").mpr ⟨2, by decide, by decide⟩

/-- C7: For every input string, the marketplace-C extractor returns a reading
without raising: when the structured parse of the tracking-data variable
throws (for any `JSON.parse` behaviour `jp` and any error `e`), the error is
caught inside the extractor and treated as "field not found", so the result
is exactly what the raw-key fallback strategy and the stock detection
produce on the same input. -/
theorem c7_lazada_no_raise (jp : String → Except String (Option TrackingData))
    (html : String) (e : String)
    (herr : lazadaTryBody jp html.toList = Except.error e) :
    extractLazadaPriceAndStock jp html = ⟨lazKeyPrice html.toList, lazStock html.toList⟩ := by
  simp only [String.toList] at herr
  simp [extractLazadaPriceAndStock, herr]

/-- Witness for C7: an always-throwing `JSON.parse` on a page that carries
both the tracking variable and the raw key still produces the fallback
reading. -/
theorem c7_lazada_no_raise_witness :
    extractLazadaPriceAndStock jpFailing
        "var pdpTrackingData = \"notjson\" \"pdt_price\":\"Rp1.234\""
      = ⟨lazKeyPrice "var pdpTrackingData = \"notjson\" \"pdt_price\":\"Rp1.234\"".toList,
         lazStock "var pdpTrackingData = \"notjson\" \"pdt_price\":\"Rp1.234\"".toList⟩ :=
  c7_lazada_no_raise jpFailing _ "SyntaxError" rfl

/-- C8: For every item whose notification dispatch raises, the item-scoped
handler catches the error and the subsequent state persistence is skipped —
no `UpdateCommand` is issued, the persisted fields stay unchanged — and the
loop proceeds to the next item. -/
theorem c8_notify_error_suppresses_persist
    (cfg : HandlerConfig) (extract : String → Reading) (env : ItemEnv)
    (item : RawItem) (url uid page : String) (price : ℚ) (em : Option String)
    (hurl : item.product_url = some url) (hne : url.isEmpty = false)
    (huid : item.user_id = some uid) (hne2 : uid.isEmpty = false)
    (hfetch : env.fetchResult = Except.ok page)
    (hprice : (extract page).price = some price)
    (huser : env.userLookup = Except.ok em)
    (hpd : env.priceDropPublish = Except.error ())
    (hrs : env.restockPublish = Except.error ())
    (hfire :
      ((decideChange item.last_price (item.in_stock.getD false) price
          (extract page).inStock).priceDropped && cfg.hasPriceTopic
        || (decideChange item.last_price (item.in_stock.getD false) price
          (extract page).inStock).restocked && cfg.hasStockTopic) = true) :
    processItem cfg extract env item = none
    ∧ (∀ st : Store, applyWrite st (processItem cfg extract env item) = st)
    ∧ (∀ rest, runItems cfg extract ((item, env) :: rest)
        = (none :: (runItems cfg extract rest).1, (runItems cfg extract rest).2 + 1)) := by
  set d := decideChange item.last_price (item.in_stock.getD false) price
    (extract page).inStock with hd
  have hmain : processItem cfg extract env item = none := by
    have hor : (d.priceDropped || d.restocked) = true := by
      rcases Bool.or_eq_true_iff.mp hfire with h | h
      · exact Bool.or_eq_true_iff.mpr (Or.inl (Bool.and_eq_true_iff.mp h).1)
      · exact Bool.or_eq_true_iff.mpr (Or.inr (Bool.and_eq_true_iff.mp h).1)
    simp only [processItem, hurl, huid, hne, hne2, itemTryBody, hfetch, hprice,
      ← hd, hor, huser, Bool.or_false, if_true]
    rcases hb : (d.priceDropped && cfg.hasPriceTopic) with _ | _
    · have hb2 : (d.restocked && cfg.hasStockTopic) = true := by
        rcases Bool.or_eq_true_iff.mp hfire with h | h
        · simp [h] at hb
        · exact h
      simp [hb, hb2, hpd, hrs]
    · simp [hb, hpd]
  refine ⟨hmain, fun st => by rw [hmain]; rfl, fun rest => ?_⟩
  rcases hr : runItems cfg extract rest with ⟨ws, n⟩
  simp [runItems, hr, hmain]

/-- Witness for C8: a price drop fires, both publishes throw, and the item's
update is suppressed. -/
theorem c8_notify_error_suppresses_persist_witness :
    processItem ⟨true, true⟩ extractDrop envNotifyFail itemGood = none :=
  (c8_notify_error_suppresses_persist ⟨true, true⟩ extractDrop envNotifyFail itemGood
    "u" "x" "page" 5 none (by decide) (by decide) (by decide) (by decide) rfl
    (by decide) rfl rfl rfl (by decide)).1

/-- C9 counterexample: a scan containing exactly one record that is skipped
for a missing `product_url` still reports a processed count of 1
(`processed++` runs before the required-field validation), while the count
the claim describes — records skipped for missing required fields not
counted — is 0. -/
theorem c9_count_counterexample :
    (runScan ⟨true, true⟩ extractNull [[(itemNoUrl, envAllOk)]]).2 = 1
    ∧ claimProcessedCount [[(itemNoUrl, envAllOk)]] = 0
    ∧ processItem ⟨true, true⟩ extractNull envAllOk itemNoUrl = none :=
  ⟨by decide, by decide, by decide⟩

/-- C9 (amended): the orchestrator maintains a count of items and reports it
at completion of the full collection pass; the reported count equals the
number of records scanned, including records skipped for missing required
fields (`url` / `ownerId`), which are counted even though they cause no
state change. -/
theorem c9_count_amended (cfg : HandlerConfig) (extract : String → Reading)
    (pages : List (List (RawItem × ItemEnv))) :
    (runScan cfg extract pages).2 = (pages.map List.length).sum := by
  induction pages with
  | nil => rfl
  | cons p ps ih =>
    rcases h1 : runItems cfg extract p with ⟨ws, n⟩
    rcases h2 : runScan cfg extract ps with ⟨ws2, n2⟩
    have hn : n = p.length := by rw [← runItems_count cfg extract p, h1]
    have hn2 : n2 = (ps.map List.length).sum := by rw [← ih, h2]
    simp [runScan, h1, h2, hn, hn2]

/-- C10: For every page containing both an in-stock and an out-of-stock
marker (case-insensitively), the conflict is resolved by the fixed check
order: the marketplace-A extractor returns stock = true when both "In
Stock" and "Currently unavailable" appear, while the marketplace-C
extractor returns stock = false when both "Stok habis" and a
schema.org/InStock marker appear. -/
theorem c10_conflicting_markers (jp : String → Except String (Option TrackingData))
    (apage lpage : String)
    (h1 : containsCI "In Stock".toList apage.toList = true)
    (_h2 : containsCI "Currently unavailable".toList apage.toList = true)
    (h3 : containsCI "Stok habis".toList lpage.toList = true)
    (_h4 : containsCI "schema.org/InStock".toList lpage.toList = true) :
    (extractAmazonPriceAndStock apage).inStock = some true
    ∧ (extractLazadaPriceAndStock jp lpage).inStock = some false := by
  constructor
  · simp only [String.toList] at h1
    simp [extractAmazonPriceAndStock, h1]
  · simp only [String.toList] at h3
    simp [extractLazadaPriceAndStock, lazStock, h3]

/-- Witness for C10: concrete pages carrying both markers each. -/
theorem c10_conflicting_markers_witness :
    (extractAmazonPriceAndStock "In Stock - Currently unavailable").inStock = some true
    ∧ (extractLazadaPriceAndStock jpFailing "Stok habis schema.org/InStock").inStock
        = some false :=
  c10_conflicting_markers jpFailing "In Stock - Currently unavailable"
    "Stok habis schema.org/InStock" (by decide) (by decide) (by decide) (by decide)
